import Mathlib

/-!
Verification of the secure command-construction layer of an SSH/rsync
transfer extension.  Strings are modelled as lists of characters
(`Str`), matching the sequence-of-code-units semantics of the source
language.  Each definition is a direct translation of the corresponding
source function.
-/

set_option maxRecDepth 4096

abbrev Str := List Char

/-- Single-quote character. -/
def sqc : Char := Char.ofNat 39

/-- Backslash character. -/
def bsc : Char := Char.ofNat 92

/-- Double-quote character. -/
def dqc : Char := Char.ofNat 34

/-- Newline character. -/
def nlc : Char := Char.ofNat 10

/-- Tab character. -/
def tabc : Char := Char.ofNat 9

/-- Carriage-return character. -/
def crc : Char := Char.ofNat 13

/-- Backtick character. -/
def btick : Char := Char.ofNat 96

/-- Body of `shellEscape`: the source runs `str.replace(/'/g, "'\\''")`,
replacing every single quote by the four characters quote, backslash,
quote, quote. -/
def replaceQuotes : Str → Str
  | [] => []
  | c :: cs =>
    if c = sqc then sqc :: bsc :: sqc :: sqc :: replaceQuotes cs
    else c :: replaceQuotes cs

/-- From `shellEscape.ts`: wrap in single quotes, escaping inner quotes. -/
def shellEscape (s : Str) : Str := sqc :: (replaceQuotes s ++ [sqc])

/-- Blank characters for the POSIX word splitter. -/
def isBlankCh (c : Char) : Bool := c = ' ' || c = tabc || c = nlc || c = crc

/-- Unquoted shell metacharacters: the splitter refuses input in which any
of these occurs outside quotes, since their shell meaning (operators,
expansion) is outside the word model. -/
def isOpCh (c : Char) : Bool :=
  c = ';' || c = '|' || c = '&' || c = '$' || c = btick ||
  c = '(' || c = ')' || c = '<' || c = '>'

/-- Lexer mode of the POSIX word splitter. -/
inductive LexMode
  | norm
  | single
  | double
deriving DecidableEq

/-- POSIX shell word splitter (field recognition only): unquoted blanks
separate words, single quotes protect everything up to the next single
quote, double quotes protect everything except that backslash escapes
`"`, `\`, and a backslash-newline is removed, an unquoted backslash
escapes the next character, and unquoted operator or expansion
characters (or an unterminated quote or trailing backslash, or `$` and
backtick inside double quotes) make the split fail. -/
def lexWords : Str → LexMode → Str → Bool → Option (List Str)
  | [], .norm, acc, started => some (if started then [acc.reverse] else [])
  | [], .single, _, _ => none
  | [], .double, _, _ => none
  | c :: cs, .norm, acc, started =>
    if isBlankCh c then
      if started then (lexWords cs .norm [] false).map (acc.reverse :: ·)
      else lexWords cs .norm [] false
    else if c = sqc then lexWords cs .single acc true
    else if c = dqc then lexWords cs .double acc true
    else if c = bsc then
      match cs with
      | [] => none
      | d :: ds => lexWords ds .norm (d :: acc) true
    else if isOpCh c then none
    else lexWords cs .norm (c :: acc) true
  | c :: cs, .single, acc, started =>
    if c = sqc then lexWords cs .norm acc started
    else lexWords cs .single (c :: acc) started
  | c :: cs, .double, acc, started =>
    if c = dqc then lexWords cs .norm acc started
    else if c = '$' ∨ c = btick then none
    else if c = bsc then
      match cs with
      | [] => none
      | d :: ds =>
        if d = dqc ∨ d = bsc then lexWords ds .double (d :: acc) started
        else if d = nlc then lexWords ds .double acc started
        else lexWords ds .double (bsc :: d :: acc) started
    else lexWords cs .double (c :: acc) started

theorem lexWords_test1 : lexWords ("ab cd".data) .norm [] false =
    some ["ab".data, "cd".data] := by decide

theorem lex_step_single_close (y acc : Str) (st : Bool) :
    lexWords (sqc :: y) .single acc st = lexWords y .norm acc st := by
  rw [lexWords.eq_def]
  simp +decide

theorem lex_step_single_other {c : Char} (hc : c ≠ sqc) (y acc : Str) (st : Bool) :
    lexWords (c :: y) .single acc st = lexWords y .single (c :: acc) st := by
  rw [lexWords.eq_def]
  simp +decide [hc]

theorem lex_step_norm_sq (y acc : Str) (st : Bool) :
    lexWords (sqc :: y) .norm acc st = lexWords y .single acc true := by
  rw [lexWords.eq_def]
  simp +decide [isBlankCh]

theorem lex_step_norm_bs (d : Char) (y acc : Str) :
    lexWords (bsc :: d :: y) .norm acc true = lexWords y .norm (d :: acc) true := by
  rw [lexWords.eq_def]
  simp +decide [isBlankCh, isOpCh]

theorem lex_replaceQuotes (s : Str) : ∀ acc : Str,
    lexWords (replaceQuotes s ++ [sqc]) .single acc true = some [acc.reverse ++ s] := by
  induction s with
  | nil =>
    intro acc
    simp [replaceQuotes, lexWords]
  | cons c cs ih =>
    intro acc
    by_cases hc : c = sqc
    · subst hc
      have h1 : replaceQuotes (sqc :: cs) = sqc :: bsc :: sqc :: sqc :: replaceQuotes cs := by
        simp [replaceQuotes]
      rw [h1, List.cons_append, List.cons_append, List.cons_append, List.cons_append,
        lex_step_single_close, lex_step_norm_bs, lex_step_norm_sq, ih]
      simp
    · have h1 : replaceQuotes (c :: cs) = c :: replaceQuotes cs := by
        simp [replaceQuotes, hc]
      rw [h1, List.cons_append, lex_step_single_other hc, ih]
      simp

/-- C2: for every string `s`, `shellEscape s` begins and ends with a single
quote, each single quote inside `s` is replaced by the four-character
sequence quote-backslash-quote-quote, and re-parsing the escaped form with a
POSIX shell word splitter yields exactly the single word `s` (in particular
for `s` containing `;`, `|`, `&`, backtick, `$`, quotes or whitespace). -/
theorem C2_shellEscape_posix_roundtrip :
    (∀ s : Str, (shellEscape s).head? = some sqc ∧ (shellEscape s).getLast? = some sqc) ∧
    (∀ a b : Str, sqc ∉ a →
      replaceQuotes (a ++ sqc :: b) = a ++ sqc :: bsc :: sqc :: sqc :: replaceQuotes b) ∧
    (∀ s : Str, lexWords (shellEscape s) .norm [] false = some [s]) := by
  refine ⟨fun s => ⟨rfl, ?_⟩, ?_, fun s => ?_⟩
  · show (sqc :: (replaceQuotes s ++ [sqc])).getLast? = some sqc
    rw [show sqc :: (replaceQuotes s ++ [sqc]) = (sqc :: replaceQuotes s) ++ [sqc] by simp]
    exact List.getLast?_concat _
  · intro a b ha
    induction a with
    | nil => simp [replaceQuotes]
    | cons x xs ih =>
      have hx : x ≠ sqc := fun h => ha (h ▸ List.mem_cons_self x xs)
      have hxs : sqc ∉ xs := fun h => ha (List.mem_cons_of_mem _ h)
      simp [replaceQuotes, hx, ih hxs]
  · show lexWords (sqc :: (replaceQuotes s ++ [sqc])) .norm [] false = some [s]
    rw [lex_step_norm_sq, lex_replaceQuotes]
    simp

/-- Witness for C2 at concrete inputs, discharging the `sqc ∉ a`
hypothesis of the replacement clause. -/
theorem C2_witness :
    replaceQuotes (['a', 'b'] ++ sqc :: ['c']) =
      ['a', 'b'] ++ sqc :: bsc :: sqc :: sqc :: replaceQuotes ['c'] :=
  C2_shellEscape_posix_roundtrip.2.1 ['a', 'b'] ['c'] (by decide)

/-- Prefix test on character lists. -/
def hasPre : Str → Str → Bool
  | [], _ => true
  | _ :: _, [] => false
  | p :: ps, c :: cs => p = c && hasPre ps cs

/-- Trim blanks from both ends, modelling `String.prototype.trim`. -/
def trimStr (s : Str) : Str :=
  ((s.dropWhile isBlankCh).reverse.dropWhile isBlankCh).reverse

/-- Helper for whitespace splitting with the current token accumulated in
reverse. -/
def splitWsGo : Str → Str → List Str
  | [], acc => if acc.isEmpty then [] else [acc.reverse]
  | c :: cs, acc =>
    if isBlankCh c then
      if acc.isEmpty then splitWsGo cs [] else acc.reverse :: splitWsGo cs []
    else splitWsGo cs (c :: acc)

/-- Split on runs of whitespace, modelling `split(/\s+/)` applied to trimmed
input (the source always trims first, so no leading empty field arises). -/
def splitWs (s : Str) : List Str := splitWsGo s []

/-- Split on newline characters keeping empty fields, modelling
`split("\n")`. -/
def splitOnNl : Str → List Str
  | [] => [[]]
  | c :: cs =>
    if c = nlc then [] :: splitOnNl cs
    else
      match splitOnNl cs with
      | [] => [[c]]
      | w :: ws => (c :: w) :: ws

/-- Join with single spaces, modelling `join(" ")`. -/
def joinSpace : List Str → Str
  | [] => []
  | [w] => w
  | w :: ws => w ++ ' ' :: joinSpace ws

/-- Lower-case a string, modelling `toLowerCase` on the ASCII range. -/
def lowerStr (s : Str) : Str := s.map Char.toLower

/-- Does the path end in a slash. -/
def endsSlash (s : Str) : Bool := decide (s.getLast? = some '/')

/-- Transfer direction of a request. -/
inductive TransferDirection
  | upload
  | download
deriving DecidableEq

/-- Host record parsed from one SSH config block alias, from
`types/server.ts`. -/
structure SSHHostConfig where
  host : Str
  hostName : Option Str := none
  user : Option Str := none
  port : Option Int := none
  identityFile : Option Str := none
  proxyJump : Option Str := none
deriving DecidableEq

/-- Optional rsync behaviour toggles (absent booleans are falsy). -/
structure RsyncOptions where
  humanReadable : Bool := false
  progress : Bool := false
  delete : Bool := false
deriving DecidableEq

/-- One transfer request, from `types/server.ts`. -/
structure TransferOptions where
  hostConfig : SSHHostConfig
  localPath : Str
  remotePath : Str
  direction : TransferDirection
  rsyncOptions : Option RsyncOptions := none
deriving DecidableEq

/-- Join two path segments, modelling `path.join` on the shapes the source
produces (no `..` or `.` segments arise). -/
def joinPath (a b : Str) : Str :=
  if b.isEmpty then a
  else if b.head? = some '/' then a ++ b
  else a ++ '/' :: b

/-- The fixed SSH client config path `join(homedir(), ".ssh", "config")`,
parameterised by the home directory. -/
def sshConfigPath (home : Str) : Str :=
  joinPath (joinPath home (".ssh".data)) ("config".data)

/-- From `rsync.ts`: expand a leading `~/` or a bare `~` in a local path to
the home directory. -/
def expandHomeDir (home p : Str) : Str :=
  if hasPre ("~/".data) p then joinPath home (p.drop 2)
  else if p = "~".data then home
  else p

/-- From `rsync.ts`: drop one trailing slash unless the path is `/`. -/
def removeTrailingSlash (p : Str) : Str :=
  if endsSlash p ∧ p ≠ "/".data then p.dropLast else p

/-- From `rsync.ts`: append a trailing slash when none is present. -/
def ensureTrailingSlash (p : Str) : Str :=
  if endsSlash p then p else p ++ ['/']

/-- Result of `statSync` on the local path: `none` when the call throws,
`some b` when it succeeds with `isDirectory()` equal to `b`. -/
abbrev FsStat := Str → Option Bool

/-- From `rsync.ts` `normalizePathsForRsync`: expand `~` in the local path,
then apply the direction-specific trailing-slash policy. -/
def normalizePathsForRsync (stat : FsStat) (home : Str) (o : TransferOptions) :
    Str × Str :=
  let expandedLocalPath := expandHomeDir home o.localPath
  match o.direction with
  | .upload =>
    match stat expandedLocalPath with
    | some true =>
      (removeTrailingSlash expandedLocalPath, ensureTrailingSlash o.remotePath)
    | _ => (expandedLocalPath, o.remotePath)
  | .download =>
    (ensureTrailingSlash expandedLocalPath, removeTrailingSlash o.remotePath)

/-- From `rsync.ts` `buildRsyncFlags`: base short flags `a`, `v`, `z`, then
optional `h` and `P`, then the long flag `--delete`. -/
def buildRsyncFlags (o : Option RsyncOptions) : Str :=
  let shortFlags : Str :=
    ['a', 'v', 'z'] ++
    (if (o.map (·.humanReadable)).getD false then ['h'] else []) ++
    (if (o.map (·.progress)).getD false then ['P'] else [])
  let flags : Str := '-' :: shortFlags
  let longFlags : List Str :=
    if (o.map (·.delete)).getD false then ["--delete".data] else []
  if longFlags.length > 0 then flags ++ ' ' :: joinSpace longFlags else flags

/-- From `rsync.ts` `buildRsyncCommand`: normalize, escape every
caller-supplied string with `shellEscape`, and assemble the operands in
direction order. -/
def buildRsyncCommand (stat : FsStat) (home : Str) (o : TransferOptions) : Str :=
  let configPath := sshConfigPath home
  let hostAlias := o.hostConfig.host
  let norm := normalizePathsForRsync stat home o
  let flags := buildRsyncFlags o.rsyncOptions
  let escapedLocalPath := shellEscape norm.1
  let escapedRemotePath := shellEscape norm.2
  let escapedHostAlias := shellEscape hostAlias
  let escapedSshCommand := shellEscape ("ssh -F ".data ++ configPath)
  let baseCommand := "rsync -e ".data ++ escapedSshCommand ++ ' ' :: flags
  match o.direction with
  | .upload =>
    baseCommand ++ ' ' :: escapedLocalPath ++ ' ' :: escapedHostAlias ++
      ':' :: escapedRemotePath
  | .download =>
    baseCommand ++ ' ' :: escapedHostAlias ++ ':' :: escapedRemotePath ++
      ' ' :: escapedLocalPath

/-- From `scp.ts` `buildScpCommand`: raw string interpolation of the paths
and host alias around `scp -F <config> -r`. -/
def buildScpCommand (home : Str) (o : TransferOptions) : Str :=
  let configPath := sshConfigPath home
  let hostAlias := o.hostConfig.host
  let baseCommand := "scp -F ".data ++ configPath ++ " -r".data
  match o.direction with
  | .upload =>
    baseCommand ++ ' ' :: o.localPath ++ ' ' :: hostAlias ++ ':' :: o.remotePath
  | .download =>
    baseCommand ++ ' ' :: hostAlias ++ ':' :: o.remotePath ++ ' ' :: o.localPath

/-- From `ssh.ts` `escapeRemotePath`: keep a leading `~/` (or a bare `~`)
unescaped for remote expansion, escaping the remainder. -/
def escapeRemotePath (remotePath : Str) : Str :=
  if hasPre ("~/".data) remotePath then "~/".data ++ shellEscape (remotePath.drop 2)
  else if remotePath = "~".data then "~".data
  else shellEscape remotePath

/-- One entry of a parsed remote listing, from `types/server.ts`. -/
structure RemoteFile where
  name : Str
  isDirectory : Bool
  size : Str
  permissions : Str
  modifiedDate : Str
deriving DecidableEq

/-- Body of the `parseLsOutput` loop for one raw line: trim, skip blanks,
split on whitespace, skip lines with fewer than nine fields, and build the
entry. -/
def parseLsLine (line : Str) : Option RemoteFile :=
  let l := trimStr line
  if l.isEmpty then none
  else
    let parts := splitWs l
    if parts.length < 9 then none
    else
      let permissions := parts.getD 0 []
      let size := parts.getD 4 []
      let month := parts.getD 5 []
      let day := parts.getD 6 []
      let time := parts.getD 7 []
      let name := joinSpace (parts.drop 8)
      let isDir := hasPre ("d".data) permissions
      some ⟨name, isDir, if isDir then [] else size, permissions,
        month ++ ' ' :: (day ++ ' ' :: time)⟩

/-- From `ssh.ts` `parseLsOutput`: trim the output, split into lines, skip a
leading `total` summary line, and parse each remaining line. -/
def parseLsOutput (output : Str) : List RemoteFile :=
  let lines := splitOnNl (trimStr output)
  let startIndex := if hasPre ("total".data) (lines.headD []) then 1 else 0
  (lines.drop startIndex).filterMap parseLsLine

/-- Execution error object observed by the error classifiers. -/
structure ExecError where
  stderr : Str := []
  message : Str := []
  killed : Bool := false
  signal : Str := []
deriving DecidableEq

/-- Lower-cased concatenation of stderr and message, as both classifiers
compute it. -/
def combinedError (e : ExecError) : Str := lowerStr (e.stderr ++ ' ' :: e.message)

/-- From `rsync.ts` `parseRsyncError`: fixed-order substring classification
of a failed transfer. -/
def parseRsyncError (e : ExecError) : Str :=
  let c := combinedError e
  if e.killed ∧ e.signal = "SIGTERM".data then
    "Connection timed out after 5 minutes. The server may be unreachable or the transfer is taking too long.".data
  else if "permission denied".data <:+: c ∧ "publickey".data <:+: c then
    "Authentication failed: SSH key not accepted. Check your SSH key configuration.".data
  else if "permission denied".data <:+: c then
    "Authentication failed: Permission denied. Check your credentials and SSH configuration.".data
  else if "host key verification failed".data <:+: c then
    "Host key verification failed. You may need to add the host to your known_hosts file.".data
  else if "no such identity".data <:+: c then
    "SSH key file not found. Check the IdentityFile path in your SSH config.".data
  else if "connection refused".data <:+: c then
    "Connection refused: The server is not accepting connections on the specified port.".data
  else if "connection timed out".data <:+: c ∨ "operation timed out".data <:+: c then
    "Connection timed out: Unable to reach the server. Check your network connection and server address.".data
  else if "no route to host".data <:+: c then
    "No route to host: The server address is unreachable. Check the hostname or IP address.".data
  else if "could not resolve hostname".data <:+: c then
    "Could not resolve hostname: The server address is invalid or DNS lookup failed.".data
  else if "network is unreachable".data <:+: c then
    "Network is unreachable: Check your internet connection.".data
  else if "no such file or directory".data <:+: c then
    "File not found: The specified file or directory does not exist on the remote server.".data
  else if "is a directory".data <:+: c then
    "Target is a directory: Use a directory path or ensure the path ends with a slash.".data
  else if "not a directory".data <:+: c then
    "Target is not a directory: The destination path must be a directory.".data
  else if "permission denied".data <:+: c ∧ ¬ ("publickey".data <:+: c) then
    "Permission denied: You do not have permission to access the file or directory on the remote server.".data
  else if "no space left on device".data <:+: c then
    "No space left on device: The destination has insufficient disk space.".data
  else if "disk quota exceeded".data <:+: c then
    "Disk quota exceeded: You have exceeded your disk quota on the remote server.".data
  else
    "Transfer failed: ".data ++
      (if ¬ e.stderr.isEmpty then e.stderr
       else if ¬ e.message.isEmpty then e.message
       else "Unknown error occurred".data)

/-- From `ssh.ts` `parseRemoteLsError`: fixed-order substring classification
of a failed remote listing (connection causes first). -/
def parseRemoteLsError (e : ExecError) : Str :=
  let c := combinedError e
  if "connection refused".data <:+: c then
    "Connection refused: The server is not accepting connections.".data
  else if "connection timed out".data <:+: c ∨ "operation timed out".data <:+: c then
    "Connection timed out: Unable to reach the server.".data
  else if "could not resolve hostname".data <:+: c then
    "Could not resolve hostname: The server address is invalid.".data
  else if "permission denied".data <:+: c ∧ "publickey".data <:+: c then
    "Authentication failed: SSH key not accepted.".data
  else if "permission denied".data <:+: c then
    "Permission denied: Check your credentials.".data
  else if "no such file or directory".data <:+: c then
    "Directory not found: The specified path does not exist on the remote server.".data
  else if "not a directory".data <:+: c then
    "Not a directory: The specified path is a file, not a directory.".data
  else
    "Failed to list remote files: ".data ++
      (if ¬ e.stderr.isEmpty then e.stderr
       else if ¬ e.message.isEmpty then e.message
       else "Unknown error".data)

/-- Word characters of the `\w` regex class. -/
def isWordCh (c : Char) : Bool :=
  (('a' ≤ c && c ≤ 'z') || ('A' ≤ c && c ≤ 'Z') || ('0' ≤ c && c ≤ '9') || c = '_')

/-- Match of the trimmed line against `/^Host\s+(.+)$/i`, returning the
captured alias text. -/
def matchHostLine (l : Str) : Option Str :=
  let rest := l.drop 4
  if lowerStr (l.take 4) = "host".data ∧ (rest.head?.map isBlankCh).getD false then
    let cap := rest.dropWhile isBlankCh
    if cap.isEmpty then none else some cap
  else none

/-- Match of the trimmed line against `/^(\w+)\s+(.+)$/`, returning key and
value captures. -/
def matchProp (l : Str) : Option (Str × Str) :=
  let key := l.takeWhile isWordCh
  let rest := l.dropWhile isWordCh
  if key.isEmpty then none
  else if (rest.head?.map isBlankCh).getD false then
    let value := rest.dropWhile isBlankCh
    if value.isEmpty then none else some (key, value)
  else none

/-- Decimal digit test. -/
def isDigitCh (c : Char) : Bool := '0' ≤ c && c ≤ '9'

/-- Value of a digit string. -/
def digitsVal (s : Str) : Nat :=
  s.foldl (fun acc c => acc * 10 + (c.toNat - '0'.toNat)) 0

/-- Model of `parseInt(s, 10)`: skip leading whitespace, read an optional
sign and the longest run of digits, `none` (NaN) when no digit follows. -/
def parseIntJS (s : Str) : Option Int :=
  let t := s.dropWhile isBlankCh
  let core : Str → Option Nat := fun u =>
    let ds := u.takeWhile isDigitCh
    if ds.isEmpty then none else some (digitsVal ds)
  match t with
  | '+' :: rest => (core rest).map (Int.ofNat ·)
  | '-' :: rest => (core rest).map (fun n => -(Int.ofNat n))
  | rest => (core rest).map (Int.ofNat ·)

/-- Properties accumulated for the current `Host` block
(`Partial<SSHHostConfig>` in the source). -/
structure PartialHostConfig where
  hostName : Option Str := none
  user : Option Str := none
  port : Option Int := none
  identityFile : Option Str := none
  proxyJump : Option Str := none
deriving DecidableEq

/-- From the `switch` in `parseConfigContent`: apply one `Key Value` line to
the current block's properties (unknown keys and unparsable ports leave them
unchanged). -/
def applyProp (home : Str) (cfg : PartialHostConfig) (key value : Str) :
    PartialHostConfig :=
  let lowerKey := lowerStr key
  let v := trimStr value
  if lowerKey = "hostname".data then { cfg with hostName := some v }
  else if lowerKey = "user".data then { cfg with user := some v }
  else if lowerKey = "port".data then
    match parseIntJS v with
    | some n => { cfg with port := some n }
    | none => cfg
  else if lowerKey = "identityfile".data then
    if hasPre ("~".data) v then
      { cfg with identityFile := some (joinPath home (v.drop 1)) }
    else { cfg with identityFile := some v }
  else if lowerKey = "proxyjump".data then { cfg with proxyJump := some v }
  else cfg

/-- Build the host record for one alias of a block. -/
def mkHost (cfg : PartialHostConfig) (a : Str) : SSHHostConfig :=
  ⟨a, cfg.hostName, cfg.user, cfg.port, cfg.identityFile, cfg.proxyJump⟩

/-- From `sshConfig.ts` `saveHostConfigs`: push one record per alias, all
sharing the block's properties. -/
def saveHostConfigs (hosts : List SSHHostConfig) (aliases : List Str)
    (cfg : PartialHostConfig) : List SSHHostConfig :=
  hosts ++ aliases.map (mkHost cfg)

/-- Aliases retained from a `Host` line: split on whitespace, drop blank
fields, drop `*` and anything containing `*`. -/
def hostLineAliases (cap : Str) : List Str :=
  ((splitWs cap).filter (fun a => ¬ (trimStr a).isEmpty)).filter
    (fun a => a ≠ "*".data ∧ ¬ ('*' ∈ a))

/-- Main loop of `parseConfigContent` over the remaining lines, carrying the
open block's aliases and properties; emits each flushed block's records in
order. -/
def parseConfigLines (home : Str) :
    List Str → List Str → PartialHostConfig → List SSHHostConfig
  | [], currentHosts, currentConfig =>
    if currentHosts.length > 0 then saveHostConfigs [] currentHosts currentConfig
    else []
  | line :: rest, currentHosts, currentConfig =>
    let trimmedLine := trimStr line
    if trimmedLine.isEmpty ∨ hasPre ("#".data) trimmedLine then
      parseConfigLines home rest currentHosts currentConfig
    else
      match matchHostLine trimmedLine with
      | some cap =>
        (if currentHosts.length > 0 then saveHostConfigs [] currentHosts currentConfig
         else []) ++ parseConfigLines home rest (hostLineAliases cap) {}
      | none =>
        if currentHosts.length > 0 then
          match matchProp trimmedLine with
          | some kv =>
            parseConfigLines home rest currentHosts (applyProp home currentConfig kv.1 kv.2)
          | none => parseConfigLines home rest currentHosts currentConfig
        else parseConfigLines home rest currentHosts currentConfig

/-- From `sshConfig.ts` `parseConfigContent`: split the file into lines and
run the block parser. -/
def parseConfigContent (home content : Str) : List SSHHostConfig :=
  parseConfigLines home (splitOnNl content) [] {}

/-- Cache entry of the parsed config, from `sshConfig.ts`. -/
structure CacheEntry where
  hosts : List SSHHostConfig
  mtimeMs : Int
deriving DecidableEq

/-- Observable state of the config file: whether it exists, the result of
`statSync` (`none` = throws) and of `readFileSync` (`none` = throws). -/
structure ConfigFs where
  present : Bool
  mtime : Option Int
  content : Option Str
deriving DecidableEq

/-- From `sshConfig.ts` `clearCache`. -/
def clearCache (_cache : Option CacheEntry) : Option CacheEntry := none

/-- From `sshConfig.ts` `parseSSHConfig`, instrumented with the resulting
cache state and a flag recording whether `readFileSync` was invoked. -/
def parseSSHConfig (home : Str) (fs : ConfigFs) (cache : Option CacheEntry) :
    List SSHHostConfig × Option CacheEntry × Bool :=
  if fs.present then
    match fs.mtime with
    | none => ([], cache, false)
    | some m =>
      match cache with
      | some c =>
        if c.mtimeMs = m then (c.hosts, some c, false)
        else
          match fs.content with
          | none => ([], some c, true)
          | some content =>
            let hosts := parseConfigContent home content
            (hosts, some ⟨hosts, m⟩, true)
      | none =>
        match fs.content with
        | none => ([], none, true)
        | some content =>
          let hosts := parseConfigContent home content
          (hosts, some ⟨hosts, m⟩, true)
  else ([], cache, false)

/-- Validation outcome, from `validation.ts`. -/
structure ValidationResult where
  valid : Bool
  error : Option Str := none
deriving DecidableEq

/-- From `validation.ts` `validatePort`: the supplied number (a JS float,
modelled as a rational) must be an integer between 1 and 65535. -/
def validatePort (port : ℚ) : ValidationResult :=
  if ¬ port.isInt then ⟨false, some ("Port must be an integer".data)⟩
  else if port < 1 ∨ port > 65535 then
    ⟨false, some ("Invalid port number: must be between 1 and 65535".data)⟩
  else ⟨true, none⟩

/-- Reflexivity of the contained-substring relation. -/
theorem within_refl (x : Str) : x <:+: x := ⟨[], [], by simp⟩

/-- A list is contained in itself followed by anything. -/
theorem within_self_append (x r : Str) : x <:+: x ++ r := ⟨[], r, by simp⟩

/-- Infix extension across a prepended list. -/
theorem within_ext_app {x t : Str} (s : Str) (h : x <:+: t) : x <:+: s ++ t := by
  obtain ⟨p, q, rfl⟩ := h
  exact ⟨s ++ p, q, by simp⟩

/-- Infix extension across a prepended character. -/
theorem within_ext_cons {x t : Str} (c : Char) (h : x <:+: t) : x <:+: c :: t := by
  obtain ⟨p, q, rfl⟩ := h
  exact ⟨c :: p, q, rfl⟩

/-- C9: `validatePort` rejects non-integers with the not-an-integer error,
rejects integers outside `[1, 65535]` with the out-of-range error, accepts
everything else, and behaves as expected on 1, 22, 65535, 0, -1, 65536 and
22.5 (written `mkRat 45 2`). -/
theorem C9_validatePort_spec :
    (∀ n : ℚ, n.isInt = false →
      validatePort n = ⟨false, some ("Port must be an integer".data)⟩) ∧
    (∀ n : ℚ, n.isInt = true → (n < 1 ∨ n > 65535) →
      validatePort n =
        ⟨false, some ("Invalid port number: must be between 1 and 65535".data)⟩) ∧
    (∀ n : ℚ, n.isInt = true → 1 ≤ n → n ≤ 65535 →
      validatePort n = ⟨true, none⟩) ∧
    (validatePort 1 = ⟨true, none⟩ ∧ validatePort 22 = ⟨true, none⟩ ∧
      validatePort 65535 = ⟨true, none⟩) ∧
    (validatePort 0 =
        ⟨false, some ("Invalid port number: must be between 1 and 65535".data)⟩ ∧
      validatePort (-1) =
        ⟨false, some ("Invalid port number: must be between 1 and 65535".data)⟩ ∧
      validatePort 65536 =
        ⟨false, some ("Invalid port number: must be between 1 and 65535".data)⟩) ∧
    validatePort (mkRat 45 2) = ⟨false, some ("Port must be an integer".data)⟩ := by
  refine ⟨fun n h => ?_, fun n h hr => ?_, fun n h h1 h2 => ?_,
    ⟨by decide, by decide, by decide⟩, ⟨by decide, by decide, by decide⟩, by decide⟩
  · unfold validatePort
    rw [if_pos (by simp [h])]
  · unfold validatePort
    rw [if_neg (by simp [h]), if_pos hr]
  · unfold validatePort
    rw [if_neg (by simp [h]), if_neg (by push_neg; exact ⟨h1, h2⟩)]

/-- Witness for C9 at the concrete in-range port 7. -/
theorem C9_witness : validatePort 7 = ⟨true, none⟩ :=
  C9_validatePort_spec.2.2.1 7 (by decide) (by decide) (by decide)

/-- C8: in the remote-listing path, a remote path starting with `~/` is
rendered as the raw two characters `~/` followed by the escape of the
remainder, a bare `~` is rendered raw and unmodified, and every other
remote path is escaped in full. -/
theorem C8_escapeRemotePath_spec :
    (∀ p : Str, hasPre ("~/".data) p = true →
      escapeRemotePath p = "~/".data ++ shellEscape (p.drop 2)) ∧
    escapeRemotePath ("~".data) = "~".data ∧
    (∀ p : Str, hasPre ("~/".data) p = false → p ≠ "~".data →
      escapeRemotePath p = shellEscape p) := by
  refine ⟨fun p h => ?_, by decide, fun p h hne => ?_⟩
  · unfold escapeRemotePath
    rw [if_pos h]
  · unfold escapeRemotePath
    rw [if_neg (by simp [h]), if_neg hne]

/-- Witness for C8 at concrete tilde-prefixed and plain paths. -/
theorem C8_witness :
    escapeRemotePath ("~/a b".data) = "~/".data ++ shellEscape ("~/a b".data.drop 2) ∧
    escapeRemotePath ("/tmp/x".data) = shellEscape ("/tmp/x".data) :=
  ⟨C8_escapeRemotePath_spec.1 ("~/a b".data) (by decide),
   C8_escapeRemotePath_spec.2.2 ("/tmp/x".data) (by decide) (by decide)⟩

/-- Counterexample to C4 as stated: an execution error whose combined text
contains both "permission denied" and "publickey" but which was killed by
SIGTERM is classified as a timeout, not as the SSH-key-rejected message. -/
theorem C4_counterexample :
    parseRsyncError
        ⟨"permission denied (publickey)".data, [], true, "SIGTERM".data⟩ =
      "Connection timed out after 5 minutes. The server may be unreachable or the transfer is taking too long.".data ∧
    ("permission denied".data <:+:
      combinedError ⟨"permission denied (publickey)".data, [], true, "SIGTERM".data⟩) ∧
    ("publickey".data <:+:
      combinedError ⟨"permission denied (publickey)".data, [], true, "SIGTERM".data⟩) ∧
    parseRsyncError
        ⟨"permission denied (publickey)".data, [], true, "SIGTERM".data⟩ ≠
      "Authentication failed: SSH key not accepted. Check your SSH key configuration.".data := by
  refine ⟨?_, by decide, by decide, by decide⟩
  unfold parseRsyncError
  rw [if_pos (by decide)]

/-- C4, amended: whenever the combined lower-cased stderr-plus-message text
contains both "permission denied" and "publickey", the classifier returns
the SSH-key-rejected message rather than the generic permission-denied
message, provided no earlier check of the fixed priority order fires: for
`parseRsyncError` the killed-by-SIGTERM timeout check, and for
`parseRemoteLsError` the connection-level checks. -/
theorem C4_publickey_priority :
    (∀ e : ExecError, ¬ (e.killed = true ∧ e.signal = "SIGTERM".data) →
      "permission denied".data <:+: combinedError e →
      "publickey".data <:+: combinedError e →
      parseRsyncError e =
        "Authentication failed: SSH key not accepted. Check your SSH key configuration.".data) ∧
    (∀ e : ExecError,
      ¬ ("connection refused".data <:+: combinedError e) →
      ¬ ("connection timed out".data <:+: combinedError e) →
      ¬ ("operation timed out".data <:+: combinedError e) →
      ¬ ("could not resolve hostname".data <:+: combinedError e) →
      "permission denied".data <:+: combinedError e →
      "publickey".data <:+: combinedError e →
      parseRemoteLsError e = "Authentication failed: SSH key not accepted.".data) := by
  constructor
  · intro e h0 h1 h2
    unfold parseRsyncError
    rw [if_neg h0, if_pos ⟨h1, h2⟩]
  · intro e hc1 hc2 hc3 hc4 h1 h2
    unfold parseRemoteLsError
    rw [if_neg hc1, if_neg (by rintro (h | h) <;> [exact hc2 h; exact hc3 h]),
      if_neg hc4, if_pos ⟨h1, h2⟩]

/-- Witness for C4 at a concrete publickey-rejection error. -/
theorem C4_witness :
    parseRsyncError ⟨"permission denied (publickey)".data, [], false, []⟩ =
      "Authentication failed: SSH key not accepted. Check your SSH key configuration.".data ∧
    parseRemoteLsError ⟨"permission denied (publickey)".data, [], false, []⟩ =
      "Authentication failed: SSH key not accepted.".data :=
  ⟨C4_publickey_priority.1 ⟨"permission denied (publickey)".data, [], false, []⟩
      (by decide) (by decide) (by decide),
   C4_publickey_priority.2 ⟨"permission denied (publickey)".data, [], false, []⟩
      (by decide) (by decide) (by decide) (by decide) (by decide) (by decide)⟩

theorem endsSlash_ensureTrailingSlash (p : Str) :
    endsSlash (ensureTrailingSlash p) = true := by
  unfold ensureTrailingSlash
  by_cases h : endsSlash p = true
  · rw [if_pos h]
    exact h
  · rw [if_neg h]
    simp [endsSlash, List.getLast?_concat]

theorem dropLast_ensureTrailingSlash (p : Str) (h : endsSlash p = false) :
    endsSlash ((ensureTrailingSlash p).dropLast) = false := by
  unfold ensureTrailingSlash
  rw [if_neg (by simp [h]), List.dropLast_concat]
  exact h

theorem removeTrailingSlash_no_slash (p : Str) (h1 : p ≠ "/".data)
    (h2 : (endsSlash p && endsSlash p.dropLast) = false) :
    endsSlash (removeTrailingSlash p) = false := by
  unfold removeTrailingSlash
  by_cases hp : endsSlash p = true
  · rw [if_pos ⟨hp, h1⟩]
    simpa [hp] using h2
  · rw [if_neg (fun hcon => hp hcon.1)]
    exact Bool.eq_false_iff.mpr hp

/-- Stat function making every path a directory, for concrete runs of the
upload-directory branch. -/
def statAllDirs : FsStat := fun _ => some true

/-- Counterexample to C3 as stated: uploading the directory `d` to the
destination `r//` leaves the normalized destination with two trailing
slashes, not exactly one. -/
theorem C3_counterexample :
    (normalizePathsForRsync statAllDirs []
        ⟨⟨"h".data, none, none, none, none, none⟩, "d".data, "r//".data,
          .upload, none⟩).2 = "r//".data ∧
    ¬ (endsSlash ((normalizePathsForRsync statAllDirs []
          ⟨⟨"h".data, none, none, none, none, none⟩, "d".data, "r//".data,
            .upload, none⟩).2).dropLast = false) := by decide

/-- C3, amended: for a directory upload the normalized source has no
trailing slash provided the expanded source is not the root `/` and does
not end in a double slash, and the normalized destination ends in a slash
— in exactly one slash when the supplied destination had none; for a
download the normalized local destination ends in a slash and the
normalized remote source has no trailing slash provided the supplied
remote is not `/` and does not end in a double slash. -/
theorem C3_trailing_slash_laws :
    ∀ (stat : FsStat) (home : Str) (o : TransferOptions),
      (o.direction = .upload → stat (expandHomeDir home o.localPath) = some true →
        ((expandHomeDir home o.localPath ≠ "/".data ∧
          (endsSlash (expandHomeDir home o.localPath) &&
            endsSlash (expandHomeDir home o.localPath).dropLast) = false) →
          endsSlash (normalizePathsForRsync stat home o).1 = false) ∧
        endsSlash (normalizePathsForRsync stat home o).2 = true ∧
        (endsSlash o.remotePath = false →
          endsSlash ((normalizePathsForRsync stat home o).2).dropLast = false)) ∧
      (o.direction = .download →
        endsSlash (normalizePathsForRsync stat home o).1 = true ∧
        ((o.remotePath ≠ "/".data ∧
          (endsSlash o.remotePath && endsSlash o.remotePath.dropLast) = false) →
          endsSlash (normalizePathsForRsync stat home o).2 = false)) := by
  intro stat home o
  rcases o with ⟨hc, lp, rp, dir, ro⟩
  cases dir with
  | upload =>
    refine ⟨fun _ hstat => ?_, fun h => nomatch h⟩
    have hn : normalizePathsForRsync stat home ⟨hc, lp, rp, .upload, ro⟩ =
        (removeTrailingSlash (expandHomeDir home lp), ensureTrailingSlash rp) := by
      simp [normalizePathsForRsync, hstat]
    rw [hn]
    exact ⟨fun h => removeTrailingSlash_no_slash _ h.1 h.2,
      endsSlash_ensureTrailingSlash rp,
      fun hrem => dropLast_ensureTrailingSlash rp hrem⟩
  | download =>
    refine ⟨fun h => (nomatch h), fun _ => ?_⟩
    have hn : normalizePathsForRsync stat home ⟨hc, lp, rp, .download, ro⟩ =
        (ensureTrailingSlash (expandHomeDir home lp), removeTrailingSlash rp) := by
      simp [normalizePathsForRsync]
    rw [hn]
    exact ⟨endsSlash_ensureTrailingSlash _,
      fun h => removeTrailingSlash_no_slash rp h.1 h.2⟩

/-- Transfer request used by the C3 witness: directory upload supplied with
a single trailing slash. -/
def c3WitnessOpts : TransferOptions :=
  ⟨⟨"h".data, none, none, none, none, none⟩, "d/".data, "r".data, .upload, none⟩

/-- Witness for C3: on a concrete directory upload `d/ → r` the normalized
source drops the slash and the destination gains exactly one. -/
theorem C3_witness :
    endsSlash (normalizePathsForRsync statAllDirs [] c3WitnessOpts).1 = false ∧
    endsSlash (normalizePathsForRsync statAllDirs [] c3WitnessOpts).2 = true ∧
    endsSlash ((normalizePathsForRsync statAllDirs [] c3WitnessOpts).2).dropLast = false :=
  ⟨((C3_trailing_slash_laws statAllDirs [] c3WitnessOpts).1 rfl rfl).1
      ⟨by decide, by decide⟩,
   ((C3_trailing_slash_laws statAllDirs [] c3WitnessOpts).1 rfl rfl).2.1,
   ((C3_trailing_slash_laws statAllDirs [] c3WitnessOpts).1 rfl rfl).2.2 (by decide)⟩

/-- C6: a second parse while the file's modification timestamp equals the
cached one returns the cached host list without reading the file (read flag
false); a changed timestamp, or a cleared cache, forces a re-read and
re-parse (read flag true) and stores the fresh result. -/
theorem C6_parseSSHConfig_cache :
    (∀ (home : Str) (fs : ConfigFs) (c : CacheEntry),
      fs.present = true → fs.mtime = some c.mtimeMs →
      parseSSHConfig home fs (some c) = (c.hosts, some c, false)) ∧
    (∀ (home : Str) (fs : ConfigFs) (c : CacheEntry) (m : Int) (content : Str),
      fs.present = true → fs.mtime = some m → c.mtimeMs ≠ m →
      fs.content = some content →
      parseSSHConfig home fs (some c) =
        (parseConfigContent home content,
          some ⟨parseConfigContent home content, m⟩, true)) ∧
    (∀ (home : Str) (fs : ConfigFs) (cache : Option CacheEntry) (m : Int)
      (content : Str),
      fs.present = true → fs.mtime = some m → fs.content = some content →
      parseSSHConfig home fs (clearCache cache) =
        (parseConfigContent home content,
          some ⟨parseConfigContent home content, m⟩, true)) := by
  refine ⟨?_, ?_, ?_⟩
  · intro home fs c hp hm
    rcases fs with ⟨p, mt, ct⟩
    simp only at hp hm
    subst hp
    subst hm
    simp [parseSSHConfig]
  · intro home fs c m content hp hm hne hct
    rcases fs with ⟨p, mt, ct⟩
    simp only at hp hm hct
    subst hp
    subst hm
    subst hct
    simp [parseSSHConfig, hne]
  · intro home fs cache m content hp hm hct
    rcases fs with ⟨p, mt, ct⟩
    simp only at hp hm hct
    subst hp
    subst hm
    subst hct
    simp [parseSSHConfig, clearCache]

/-- Witness for C6 at a concrete file state and cache. -/
theorem C6_witness :
    parseSSHConfig [] ⟨true, some 5, some []⟩ (some ⟨[], 5⟩) =
      ([], some ⟨[], 5⟩, false) ∧
    parseSSHConfig [] ⟨true, some 5, some []⟩ (some ⟨[], 4⟩) =
      (parseConfigContent [] [], some ⟨parseConfigContent [] [], 5⟩, true) ∧
    parseSSHConfig [] ⟨true, some 5, some []⟩ (clearCache (some ⟨[], 5⟩)) =
      (parseConfigContent [] [], some ⟨parseConfigContent [] [], 5⟩, true) :=
  ⟨C6_parseSSHConfig_cache.1 [] ⟨true, some 5, some []⟩ ⟨[], 5⟩ rfl rfl,
   C6_parseSSHConfig_cache.2.1 [] ⟨true, some 5, some []⟩ ⟨[], 4⟩ 5 [] rfl rfl
     (by decide) rfl,
   C6_parseSSHConfig_cache.2.2 [] ⟨true, some 5, some []⟩ (some ⟨[], 5⟩) 5 []
     rfl rfl rfl⟩

/-- C5: the block `Host a b` with `HostName x.example.com` and `User u`
yields exactly two records sharing the block's properties; the end-of-input
flush emits one record per alias of the open block, all sharing its
properties; and aliases retained from a `Host` line never equal `*` nor
contain `*`. -/
theorem C5_host_block_aliases :
    (∀ home : Str,
      parseConfigContent home
          ("Host a b\n  HostName x.example.com\n  User u\n".data) =
        [⟨"a".data, some ("x.example.com".data), some ("u".data), none, none, none⟩,
         ⟨"b".data, some ("x.example.com".data), some ("u".data), none, none, none⟩]) ∧
    (∀ (home : Str) (aliases : List Str) (cfg : PartialHostConfig),
      parseConfigLines home [] aliases cfg = aliases.map (mkHost cfg)) ∧
    (∀ (cap a : Str), a ∈ hostLineAliases cap → a ≠ "*".data ∧ ¬ ('*' ∈ a)) := by
  refine ⟨fun home => rfl, fun home aliases cfg => ?_, fun cap a ha => ?_⟩
  · unfold parseConfigLines
    by_cases h : aliases.length > 0
    · rw [if_pos h]
      unfold saveHostConfigs
      simp
    · rw [if_neg h]
      have : aliases = [] := List.length_eq_zero.mp (Nat.eq_zero_of_not_pos h)
      simp [this]
  · have := List.of_mem_filter ha
    simpa using this

/-- Witness for C5: the alias kept from the line `a *b` is `a`, which is not
a wildcard. -/
theorem C5_witness : "a".data ≠ "*".data ∧ ¬ ('*' ∈ "a".data) :=
  C5_host_block_aliases.2.2 ("a *b".data) ("a".data) (by decide)

theorem splitWsGo_ne_nil (l : Str) : ∀ acc t : Str, t ∈ splitWsGo l acc → t ≠ [] := by
  induction l with
  | nil =>
    intro acc t ht
    unfold splitWsGo at ht
    by_cases h : acc.isEmpty = true
    · simp [h] at ht
    · rw [if_neg h] at ht
      simp only [List.mem_singleton] at ht
      subst ht
      intro he
      exact h (by simp [List.isEmpty_iff, List.reverse_eq_nil_iff.mp he])
  | cons c cs ih =>
    intro acc t ht
    unfold splitWsGo at ht
    by_cases hb : isBlankCh c = true
    · rw [if_pos hb] at ht
      by_cases ha : acc.isEmpty = true
      · rw [if_pos ha] at ht
        exact ih [] t ht
      · rw [if_neg ha] at ht
        rcases List.mem_cons.mp ht with he | hm
        · subst he
          intro hnil
          exact ha (by simp [List.isEmpty_iff, List.reverse_eq_nil_iff.mp hnil])
        · exact ih [] t hm
    · rw [if_neg hb] at ht
      exact ih (c :: acc) t ht

theorem splitWs_ne_nil (s : Str) : ∀ t ∈ splitWs s, t ≠ [] :=
  fun t ht => splitWsGo_ne_nil s [] t ht

/-- C7: the listing parser skips a leading `total` line and every line with
fewer than nine whitespace-separated fields; each produced entry is a
directory exactly when its permission string starts with `d`, and has an
empty size exactly when it is a directory; the sample directory line parses
to the expected entry. -/
theorem C7_parseLsOutput_spec :
    parseLsOutput ("drwxr-xr-x 5 u g 4.0K Jan 13 10:30 docs".data) =
      [⟨"docs".data, true, [], "drwxr-xr-x".data, "Jan 13 10:30".data⟩] ∧
    (∀ out : Str,
      hasPre ("total".data) ((splitOnNl (trimStr out)).headD []) = true →
      parseLsOutput out = ((splitOnNl (trimStr out)).tail).filterMap parseLsLine) ∧
    (∀ l : Str, (splitWs (trimStr l)).length < 9 → parseLsLine l = none) ∧
    (∀ (out : Str) (f : RemoteFile), f ∈ parseLsOutput out →
      (f.isDirectory = true ↔ hasPre ("d".data) f.permissions = true) ∧
      (f.size = [] ↔ f.isDirectory = true)) := by
  refine ⟨by decide, fun out h => ?_, fun l h => ?_, fun out f hf => ?_⟩
  · simp only [parseLsOutput]
    rw [h]
    simp [List.drop_one]
  · unfold parseLsLine
    by_cases he : (trimStr l).isEmpty = true
    · rw [if_pos he]
    · rw [if_neg he, if_pos h]
  · unfold parseLsOutput at hf
    obtain ⟨l, _, hfl⟩ := List.mem_filterMap.mp hf
    unfold parseLsLine at hfl
    by_cases he : (trimStr l).isEmpty = true
    · rw [if_pos he] at hfl
      exact absurd hfl (by simp)
    · rw [if_neg he] at hfl
      by_cases hlen : (splitWs (trimStr l)).length < 9
      · rw [if_pos hlen] at hfl
        exact absurd hfl (by simp)
      · rw [if_neg hlen] at hfl
        have hf' := Option.some_injective _ hfl
        subst hf'
        refine ⟨Iff.rfl, ?_⟩
        by_cases hd : hasPre ("d".data) ((splitWs (trimStr l)).getD 0 []) = true
        · rw [hd]
          simp
        · have h4 : 4 < (splitWs (trimStr l)).length := by omega
          have hmem : (splitWs (trimStr l)).getD 4 [] ∈ splitWs (trimStr l) := by
            rw [List.getD_eq_getElem _ _ h4]
            exact List.getElem_mem h4
          have hne : (splitWs (trimStr l)).getD 4 [] ≠ [] :=
            splitWs_ne_nil (trimStr l) _ hmem
          rw [Bool.eq_false_iff.mpr hd]
          simpa using hne

/-- Witness for C7: a short line is skipped, and the sample entry satisfies
the directory and size laws. -/
theorem C7_witness :
    parseLsLine ("a b".data) = none ∧
    ((RemoteFile.mk ("docs".data) true [] ("drwxr-xr-x".data)
        ("Jan 13 10:30".data)).isDirectory = true ↔
      hasPre ("d".data) (RemoteFile.mk ("docs".data) true [] ("drwxr-xr-x".data)
        ("Jan 13 10:30".data)).permissions = true) :=
  ⟨C7_parseLsOutput_spec.2.2.1 ("a b".data) (by decide),
   (C7_parseLsOutput_spec.2.2.2 ("drwxr-xr-x 5 u g 4.0K Jan 13 10:30 docs".data)
      (RemoteFile.mk ("docs".data) true [] ("drwxr-xr-x".data) ("Jan 13 10:30".data))
      (by decide)).1⟩

theorem buildRsyncCommand_upload_eq (stat : FsStat) (home : Str)
    (hc : SSHHostConfig) (lp rp : Str) (ro : Option RsyncOptions) :
    buildRsyncCommand stat home ⟨hc, lp, rp, .upload, ro⟩ =
      "rsync -e ".data ++ (shellEscape ("ssh -F ".data ++ sshConfigPath home) ++
        ' ' :: (buildRsyncFlags ro ++
        ' ' :: (shellEscape (normalizePathsForRsync stat home ⟨hc, lp, rp, .upload, ro⟩).1 ++
        ' ' :: (shellEscape hc.host ++
        ':' :: shellEscape (normalizePathsForRsync stat home ⟨hc, lp, rp, .upload, ro⟩).2)))) := by
  simp [buildRsyncCommand]

theorem buildRsyncCommand_download_eq (stat : FsStat) (home : Str)
    (hc : SSHHostConfig) (lp rp : Str) (ro : Option RsyncOptions) :
    buildRsyncCommand stat home ⟨hc, lp, rp, .download, ro⟩ =
      "rsync -e ".data ++ (shellEscape ("ssh -F ".data ++ sshConfigPath home) ++
        ' ' :: (buildRsyncFlags ro ++
        ' ' :: (shellEscape hc.host ++
        ':' :: (shellEscape (normalizePathsForRsync stat home ⟨hc, lp, rp, .download, ro⟩).2 ++
        ' ' :: shellEscape (normalizePathsForRsync stat home ⟨hc, lp, rp, .download, ro⟩).1)))) := by
  simp [buildRsyncCommand]

theorem buildScpCommand_upload_eq (home : Str) (hc : SSHHostConfig)
    (lp rp : Str) (ro : Option RsyncOptions) :
    buildScpCommand home ⟨hc, lp, rp, .upload, ro⟩ =
      "scp -F ".data ++ (sshConfigPath home ++ (" -r".data ++
        ' ' :: (lp ++ ' ' :: (hc.host ++ ':' :: rp)))) := by
  simp [buildScpCommand]

theorem buildScpCommand_download_eq (home : Str) (hc : SSHHostConfig)
    (lp rp : Str) (ro : Option RsyncOptions) :
    buildScpCommand home ⟨hc, lp, rp, .download, ro⟩ =
      "scp -F ".data ++ (sshConfigPath home ++ (" -r".data ++
        ' ' :: (hc.host ++ ':' :: (rp ++ ' ' :: lp)))) := by
  simp [buildScpCommand]

/-- Transfer request used by the C1 counterexample: a local path with a
space, built in recursive-copy mode. -/
def c1Opts : TransferOptions :=
  ⟨⟨"srv".data, none, none, none, none, none⟩, "a b".data, "r".data, .upload, none⟩

/-- Counterexample to C1 as stated: in recursive-copy mode the raw local
path appears in the built command, its escaped form does not, and the
command contains no single quote at all — no caller-supplied string was
passed through shellEscape. -/
theorem C1_counterexample :
    ("a b".data <:+: buildScpCommand ("/h".data) c1Opts) ∧
    ¬ (shellEscape ("a b".data) <:+: buildScpCommand ("/h".data) c1Opts) ∧
    sqc ∉ buildScpCommand ("/h".data) c1Opts := by decide

/-- C1, amended: in incremental-sync mode every caller-supplied string (the
normalized local path, the normalized remote path, the host alias, and the
synthesized `-e` ssh sub-command) is embedded through shellEscape, while in
recursive-copy mode the local path, remote path and host alias are embedded
raw, with no escaping. -/
theorem C1_escaping_by_mode :
    (∀ (stat : FsStat) (home : Str) (o : TransferOptions),
      shellEscape (normalizePathsForRsync stat home o).1 <:+:
        buildRsyncCommand stat home o ∧
      shellEscape (normalizePathsForRsync stat home o).2 <:+:
        buildRsyncCommand stat home o ∧
      shellEscape o.hostConfig.host <:+: buildRsyncCommand stat home o ∧
      shellEscape ("ssh -F ".data ++ sshConfigPath home) <:+:
        buildRsyncCommand stat home o) ∧
    (∀ (home : Str) (o : TransferOptions),
      o.localPath <:+: buildScpCommand home o ∧
      o.remotePath <:+: buildScpCommand home o ∧
      o.hostConfig.host <:+: buildScpCommand home o) := by
  constructor
  · intro stat home o
    rcases o with ⟨hc, lp, rp, dir, ro⟩
    cases dir with
    | upload =>
      rw [buildRsyncCommand_upload_eq]
      refine ⟨?_, ?_, ?_, ?_⟩
      · exact within_ext_app _ (within_ext_app _ (within_ext_cons _ (within_ext_app _
          (within_ext_cons _ (within_self_append _ _)))))
      · exact within_ext_app _ (within_ext_app _ (within_ext_cons _ (within_ext_app _
          (within_ext_cons _ (within_ext_app _ (within_ext_cons _ (within_ext_app _
          (within_ext_cons _ (within_refl _)))))))))
      · exact within_ext_app _ (within_ext_app _ (within_ext_cons _ (within_ext_app _
          (within_ext_cons _ (within_ext_app _ (within_ext_cons _
          (within_self_append _ _)))))))
      · exact within_ext_app _ (within_self_append _ _)
    | download =>
      rw [buildRsyncCommand_download_eq]
      refine ⟨?_, ?_, ?_, ?_⟩
      · exact within_ext_app _ (within_ext_app _ (within_ext_cons _ (within_ext_app _
          (within_ext_cons _ (within_ext_app _ (within_ext_cons _ (within_ext_app _
          (within_ext_cons _ (within_refl _)))))))))
      · exact within_ext_app _ (within_ext_app _ (within_ext_cons _ (within_ext_app _
          (within_ext_cons _ (within_ext_app _ (within_ext_cons _
          (within_self_append _ _)))))))
      · exact within_ext_app _ (within_ext_app _ (within_ext_cons _ (within_ext_app _
          (within_ext_cons _ (within_self_append _ _)))))
      · exact within_ext_app _ (within_self_append _ _)
  · intro home o
    rcases o with ⟨hc, lp, rp, dir, ro⟩
    cases dir with
    | upload =>
      rw [buildScpCommand_upload_eq]
      refine ⟨?_, ?_, ?_⟩
      · exact within_ext_app _ (within_ext_app _ (within_ext_app _ (within_ext_cons _
          (within_self_append _ _))))
      · exact within_ext_app _ (within_ext_app _ (within_ext_app _ (within_ext_cons _
          (within_ext_app _ (within_ext_cons _ (within_ext_app _ (within_ext_cons _
          (within_refl _))))))))
      · exact within_ext_app _ (within_ext_app _ (within_ext_app _ (within_ext_cons _
          (within_ext_app _ (within_ext_cons _ (within_self_append _ _))))))
    | download =>
      rw [buildScpCommand_download_eq]
      refine ⟨?_, ?_, ?_⟩
      · exact within_ext_app _ (within_ext_app _ (within_ext_app _ (within_ext_cons _
          (within_ext_app _ (within_ext_cons _ (within_ext_app _ (within_ext_cons _
          (within_refl _))))))))
      · exact within_ext_app _ (within_ext_app _ (within_ext_app _ (within_ext_cons _
          (within_ext_app _ (within_ext_cons _ (within_self_append _ _))))))
      · exact within_ext_app _ (within_ext_app _ (within_ext_app _ (within_ext_cons _
          (within_self_append _ _))))

/-- C10: for an incremental-sync transfer whose remote path begins with `~/`
or equals `~` — an upload of a regular file, or any download —
`buildRsyncCommand` embeds the remote path as `shellEscape` of its
normalized form, so the rendered remote operand starts with a single quote
(which is not a tilde): the unescaped-tilde exception of the remote-listing
path is never applied. -/
theorem C10_rsync_escapes_tilde_fully :
    (∀ (stat : FsStat) (home : Str) (o : TransferOptions),
      o.direction = .upload →
      stat (expandHomeDir home o.localPath) = some false →
      (hasPre ("~/".data) o.remotePath = true ∨ o.remotePath = "~".data) →
      buildRsyncCommand stat home o =
        "rsync -e ".data ++ (shellEscape ("ssh -F ".data ++ sshConfigPath home) ++
          ' ' :: (buildRsyncFlags o.rsyncOptions ++
          ' ' :: (shellEscape (expandHomeDir home o.localPath) ++
          ' ' :: (shellEscape o.hostConfig.host ++
          ':' :: shellEscape o.remotePath)))) ∧
      (shellEscape o.remotePath).head? = some sqc) ∧
    (∀ (stat : FsStat) (home : Str) (o : TransferOptions),
      o.direction = .download →
      (hasPre ("~/".data) o.remotePath = true ∨ o.remotePath = "~".data) →
      buildRsyncCommand stat home o =
        "rsync -e ".data ++ (shellEscape ("ssh -F ".data ++ sshConfigPath home) ++
          ' ' :: (buildRsyncFlags o.rsyncOptions ++
          ' ' :: (shellEscape o.hostConfig.host ++
          ':' :: (shellEscape (removeTrailingSlash o.remotePath) ++
          ' ' :: shellEscape (ensureTrailingSlash (expandHomeDir home o.localPath)))))) ∧
      (shellEscape (removeTrailingSlash o.remotePath)).head? = some sqc) ∧
    sqc ≠ '~' := by
  refine ⟨?_, ?_, by decide⟩
  · intro stat home o hdir hstat _
    rcases o with ⟨hc, lp, rp, dir, ro⟩
    simp only at hdir hstat
    subst hdir
    have hn : normalizePathsForRsync stat home ⟨hc, lp, rp, .upload, ro⟩ =
        (expandHomeDir home lp, rp) := by
      simp [normalizePathsForRsync, hstat]
    rw [buildRsyncCommand_upload_eq, hn]
    exact ⟨rfl, rfl⟩
  · intro stat home o hdir _
    rcases o with ⟨hc, lp, rp, dir, ro⟩
    simp only at hdir
    subst hdir
    have hn : normalizePathsForRsync stat home ⟨hc, lp, rp, .download, ro⟩ =
        (ensureTrailingSlash (expandHomeDir home lp), removeTrailingSlash rp) := by
      simp [normalizePathsForRsync]
    rw [buildRsyncCommand_download_eq, hn]
    exact ⟨rfl, rfl⟩

/-- Stat function making every path a regular file, for concrete runs of
the upload-file branch. -/
def statAllFiles : FsStat := fun _ => some false

/-- Transfer request used by the C10 witness: upload of a regular file to a
tilde-prefixed remote path. -/
def c10Opts : TransferOptions :=
  ⟨⟨"srv".data, none, none, none, none, none⟩, "f.txt".data, "~/x".data, .upload, none⟩

/-- Witness for C10: on a concrete file upload to `~/x` the built command
escapes the remote path in full and the rendered operand starts with a
quote. -/
theorem C10_witness :
    buildRsyncCommand statAllFiles ("/h".data) c10Opts =
      "rsync -e ".data ++ (shellEscape ("ssh -F ".data ++ sshConfigPath ("/h".data)) ++
        ' ' :: (buildRsyncFlags c10Opts.rsyncOptions ++
        ' ' :: (shellEscape (expandHomeDir ("/h".data) c10Opts.localPath) ++
        ' ' :: (shellEscape c10Opts.hostConfig.host ++
        ':' :: shellEscape c10Opts.remotePath)))) ∧
    (shellEscape c10Opts.remotePath).head? = some sqc :=
  C10_rsync_escapes_tilde_fully.1 statAllFiles ("/h".data) c10Opts rfl rfl
    (Or.inl (by decide))
